import Mathlib

/-!
Verification of the castle-adventure game (`src/adventure/adv_game.py`).

The Python program is embedded shallowly:

* `RandomItemSelector` is a record of the two mutable fields `items` and
  `used_items`; each method becomes a state-passing function.  The call
  `random.choice(available)` is modelled by an oracle index `k : Nat`
  supplied by the caller: the chosen element is `available[k % available.length]`,
  so every possible random choice corresponds to some `k`.
* Python `in` / `not in` on lists is value equality, modelled with
  `[DecidableEq α]` and `List` membership.
* `SenseClueGenerator`, `Room`, `Castle` are records; `Encounter` is an
  inductive with the one concrete variant the program defines
  (`DefaultEncounter`), whose `run_encounter` always yields `CONTINUE`
  after producing the generated text.
* `Castle.select_door` consumes a list of already-parsed console inputs
  (`none` models a non-numeric line, `some n` a numeric one); running out
  of input models the `EOFError` path, surfaced as `none` from
  `next_room` (the exception propagates to the game loop).
-/

/-- State of the Python class `RandomItemSelector`: the pool `items` and the
selection history `used_items` (in selection order). -/
structure RandomItemSelector (α : Type) where
  items : List α
  used_items : List α
deriving DecidableEq

/-- Constructor `__init__(items=None)` and the re-initializing `init` alias:
fresh pool (defaulting to empty), empty `used_items`. -/
def RandomItemSelector.init (items : Option (List α)) : RandomItemSelector α :=
  ⟨items.getD [], []⟩

/-- Method `add_item`: `self.items.append(item)`. -/
def RandomItemSelector.add_item (s : RandomItemSelector α) (item : α) :
    RandomItemSelector α :=
  { s with items := s.items ++ [item] }

/-- Method `reset`: `self.used_items.clear()`. -/
def RandomItemSelector.reset (s : RandomItemSelector α) : RandomItemSelector α :=
  { s with used_items := [] }

/-- The list `available = [itm for itm in self.items if itm not in self.used_items]`
computed inside `pull_random_item` (line 68). -/
def RandomItemSelector.available [DecidableEq α] (s : RandomItemSelector α) : List α :=
  s.items.filter (fun itm => !(decide (itm ∈ s.used_items)))

/-- The final value of the local `available` in `pull_random_item`: the
filtered list, or — after the exhaustion reset of line 72-73 — the full pool
(`available = list(self.items)`). -/
def RandomItemSelector.pullAvail [DecidableEq α] (s : RandomItemSelector α) : List α :=
  if s.available.isEmpty then s.items else s.available

/-- Method `pull_random_item`.  `k` is the randomness oracle: `random.choice(l)`
is modelled as `l[k % l.length]`.  Returns the drawn item (`none` when the pool
is empty) together with the successor state.  The inner `none` match arm is
unreachable for a non-empty pool (`pullAvail` is then non-empty, see
`RandomItemSelector.pull_avail_ne_nil`); it merely totalizes the lookup. -/
def RandomItemSelector.pull_random_item [DecidableEq α] (s : RandomItemSelector α)
    (k : Nat) : Option α × RandomItemSelector α :=
  if s.items.isEmpty then
    (none, { s with used_items := [] })
  else
    let s' := if s.available.isEmpty then s.reset else s
    let avail := s.pullAvail
    match avail[k % avail.length]? with
    | some choice => (some choice, { s' with used_items := s'.used_items ++ [choice] })
    | none => (none, s')

/-- Iterated draws: `pull_random_item` called once per oracle value in `ks`,
with no reset in between; returns the list of results and the final state. -/
def RandomItemSelector.pull_seq [DecidableEq α] (s : RandomItemSelector α) :
    List Nat → List (Option α) × RandomItemSelector α
  | [] => ([], s)
  | k :: ks =>
    let p := s.pull_random_item k
    let q := p.2.pull_seq ks
    (p.1 :: q.1, q.2)

/-- The module-level `clues` corpus. -/
def clues : List String :=
  ["There is a scorched crescent on the wall where something burned briefly.",
   "There is a line of crushed petals leading toward a closed corner.",
   "There is a faint smear of ash along the baseboard, as if something smoldered and was moved.",
   "There is a folded note tucked beneath a loose floorboard, its edges softened by handling.",
   "There is a dark ring on the table where glasses were set and then forgotten.",
   "There is a single, muddy footprint half-hidden under the rug\x27s fringe.",
   "There is a dried drip mark on the ceiling, streaking down and long since settled.",
   "There is a cluster of tiny punctures in the curtain, their pattern oddly deliberate.",
   "There is a hurriedly rearranged stack of books, their spines scuffed and out of order.",
   "There is a faint trace of perfume lingering in the corner, layered with dust and time."]

/-- The module-level `sense_exp` corpus. -/
def sense_exp : List String :=
  ["You see candlelight tremble along a tapestry\x27s braided edge, answering a drifting draft.",
   "You hear the slow settling of stone, a low groan that might once have been a footstep.",
   "You smell iron and old wax layered with something sweet and green, like dried herbs.",
   "You feel the floorboards whisper underfoot, as if remembering a hurried passage.",
   "You sense a cool current that carries the echo of laughter or the memory of it.",
   "You see a shadow pause in the corner, holding a shape a heartbeat too long.",
   "You hear the soft clink of glass far away, as if someone set down a fragile secret.",
   "You smell smoke threaded with rosemary, the trace of a brazier long since banked.",
   "You feel the windowsill\x27s stone — worn smooth and faintly warm from many palms.",
   "You sense the air thicken, a subtle pressure like someone hesitating beyond the door.",
   "You see motes of dust turn in a single beam of light, each one a silent witness.",
   "You hear a patient tapping behind the plaster, regular and oddly deliberate."]

/-- State of `SenseClueGenerator`: its two selectors. -/
structure SenseClueGenerator where
  clue_selector : RandomItemSelector String
  sense_selector : RandomItemSelector String
deriving DecidableEq

/-- The state the singleton `SenseClueGenerator()` holds on first construction:
selectors preloaded with the module-level corpora. -/
def SenseClueGenerator.instance : SenseClueGenerator :=
  ⟨⟨clues, []⟩, ⟨sense_exp, []⟩⟩

/-- Python truthiness of `Optional[str]`: `None` and `""` are falsy. -/
def truthy : Option String → Bool
  | none => false
  | some s => !s.isEmpty

/-- Method `get_senseclue`: pull one clue and one sense (oracles `k1`, `k2`)
and combine them following the `if clue and sense / if clue / if sense`
truthiness cascade. -/
def SenseClueGenerator.get_senseclue (g : SenseClueGenerator) (k1 k2 : Nat) :
    String × SenseClueGenerator :=
  let pc := g.clue_selector.pull_random_item k1
  let ps := g.sense_selector.pull_random_item k2
  let g' : SenseClueGenerator := ⟨pc.2, ps.2⟩
  if truthy pc.1 && truthy ps.1 then ((pc.1.getD "") ++ " " ++ (ps.1.getD ""), g')
  else if truthy pc.1 then (pc.1.getD "", g')
  else if truthy ps.1 then (ps.1.getD "", g')
  else ("", g')

/-- The `encounter_outcome` enum (aliased `EncounterOutcome` in the source). -/
inductive EncounterOutcome where
  | CONTINUE
  | END
deriving DecidableEq

/-- The Encounter hierarchy: the program defines the abstract base and the one
concrete subclass `DefaultEncounter`. -/
inductive Encounter where
  | DefaultEncounter
deriving DecidableEq

/-- Method `run_encounter` of `DefaultEncounter`: the generator has no
`pull_random_item` attribute, so the fallback combines one clue and one sense
(exactly the `get_senseclue` cascade), prints it, and returns `CONTINUE`.
Result: (outcome, printed text, successor generator state). -/
def Encounter.run_encounter : Encounter → SenseClueGenerator → Nat → Nat →
    EncounterOutcome × String × SenseClueGenerator
  | .DefaultEncounter, g, k1, k2 =>
    let p := g.get_senseclue k1 k2
    (EncounterOutcome.CONTINUE, p.1, p.2)

/-- A `Room`: a name and its owned `Encounter`. -/
structure Room where
  name : String
  encounter : Encounter
deriving DecidableEq

/-- Method `visit_room`: delegates to the encounter. -/
def Room.visit_room (r : Room) (g : SenseClueGenerator) (k1 k2 : Nat) :
    EncounterOutcome × String × SenseClueGenerator :=
  r.encounter.run_encounter g k1 k2

/-- The module-level `rooms` list. -/
def rooms : List Room :=
  [⟨"Throne Room", .DefaultEncounter⟩, ⟨"Armory", .DefaultEncounter⟩,
   ⟨"Library", .DefaultEncounter⟩, ⟨"Great Hall", .DefaultEncounter⟩,
   ⟨"Solar", .DefaultEncounter⟩, ⟨"Dungeon", .DefaultEncounter⟩]

/-- `Castle` state: its room selector. -/
structure Castle where
  room_selector : RandomItemSelector Room
deriving DecidableEq

/-- Constructor `Castle(rooms=None)`. -/
def Castle.init (rs : Option (List Room)) : Castle :=
  ⟨⟨(rs.getD rooms), []⟩⟩

/-- Method `select_door`: `num_doors` is the value of `random.randint(2, 4)`;
the input stream is a list of already-parsed lines (`none` = non-numeric text,
which `int()` rejects with `ValueError`).  The re-prompt loop walks the stream
until a numeric in-range choice appears; exhausting the stream models
`EOFError` (result `none`). -/
def Castle.select_door (num_doors : Nat) : List (Option Int) → Option Int
  | [] => none
  | tok :: rest =>
    match tok with
    | some choice =>
      if 1 ≤ choice ∧ choice ≤ (num_doors : Int) then some choice
      else Castle.select_door num_doors rest
    | none => Castle.select_door num_doors rest

/-- Method `next_room`: run the door selection (its result is bound to `door`
and never used), draw a room with oracle `k`; on `None` reset the selector and
return `END`, otherwise visit the room.  `none` overall models `EOFError`
escaping from `select_door`.  Result: outcome, successor castle, successor
generator state. -/
def Castle.next_room (c : Castle) (num_doors : Nat) (inputs : List (Option Int))
    (k : Nat) (g : SenseClueGenerator) (k1 k2 : Nat) :
    Option (EncounterOutcome × Castle × SenseClueGenerator) :=
  match Castle.select_door num_doors inputs with
  | none => none
  | some _door =>
    let p := c.room_selector.pull_random_item k
    match p.1 with
    | none => some (EncounterOutcome.END, ⟨p.2.reset⟩, g)
    | some room =>
      let v := room.visit_room g k1 k2
      some (v.1, ⟨p.2⟩, v.2.2)

/-- Method `Castle.reset`: reset the room selector. -/
def Castle.reset (c : Castle) : Castle :=
  ⟨c.room_selector.reset⟩

/-- Reachable selector states: constructed (or re-`init`-ed) with any pool and
empty history, then closed under `add_item`, `pull_random_item` and `reset`. -/
inductive RandomItemSelector.Reachable [DecidableEq α] :
    RandomItemSelector α → Prop where
  | init (items : Option (List α)) : Reachable (RandomItemSelector.init items)
  | add_item (s : RandomItemSelector α) (x : α) :
      Reachable s → Reachable (s.add_item x)
  | pull (s : RandomItemSelector α) (k : Nat) :
      Reachable s → Reachable (s.pull_random_item k).2
  | reset (s : RandomItemSelector α) :
      Reachable s → Reachable s.reset

/-- Membership in `available` is membership in the pool minus the used values. -/
theorem RandomItemSelector.mem_available [DecidableEq α] (s : RandomItemSelector α)
    (x : α) : x ∈ s.available ↔ x ∈ s.items ∧ x ∉ s.used_items := by
  simp [RandomItemSelector.available]

/-- On a non-empty pool the drawing list is non-empty. -/
theorem RandomItemSelector.pull_avail_ne_nil [DecidableEq α] (s : RandomItemSelector α)
    (h : s.items ≠ []) : s.pullAvail ≠ [] := by
  by_cases hA : s.available.isEmpty
  · simpa [pullAvail, hA] using h
  · have hv : s.available ≠ [] := fun hnil => hA (by simp [hnil])
    simpa [pullAvail, hA] using hv

/-- Characterization of `pull_random_item` on a non-empty pool: the drawn item
is `pullAvail[k % pullAvail.length]`, the pool is unchanged, and the history is
extended by the drawn item (after being cleared when `available` was empty). -/
theorem RandomItemSelector.pull_random_item_eq [DecidableEq α]
    (s : RandomItemSelector α) (k : Nat) (h : s.items ≠ []) :
    ∃ hlt : k % s.pullAvail.length < s.pullAvail.length,
      s.pull_random_item k =
        (some (s.pullAvail.get ⟨k % s.pullAvail.length, hlt⟩),
         ⟨s.items,
          (if s.available.isEmpty then [] else s.used_items) ++
            [s.pullAvail.get ⟨k % s.pullAvail.length, hlt⟩]⟩) := by
  have hne := s.pull_avail_ne_nil h
  have hlt : k % s.pullAvail.length < s.pullAvail.length :=
    Nat.mod_lt _ (List.length_pos.mpr hne)
  refine ⟨hlt, ?_⟩
  unfold pull_random_item
  rw [if_neg (by simp [h])]
  simp only [List.getElem?_eq_getElem hlt, List.get_eq_getElem]
  by_cases hA : s.available.isEmpty <;> simp [hA, RandomItemSelector.reset]

/-- Every element of the drawing list belongs to the pool. -/
theorem RandomItemSelector.mem_of_mem_pullAvail [DecidableEq α]
    (s : RandomItemSelector α) (x : α) (hx : x ∈ s.pullAvail) : x ∈ s.items := by
  unfold pullAvail at hx
  by_cases hA : s.available.isEmpty
  · simpa [hA] using hx
  · rw [if_neg (by simp [hA])] at hx
    exact ((s.mem_available x).mp hx).1

/-- Empty-pool branch of `pull_random_item`: clear the history, return `none`. -/
theorem RandomItemSelector.pull_random_item_of_nil [DecidableEq α]
    (s : RandomItemSelector α) (k : Nat) (h : s.items = []) :
    s.pull_random_item k = (none, ⟨s.items, []⟩) := by
  unfold pull_random_item
  rw [if_pos (by simp [h])]

/-- The pool is unchanged by a draw. -/
theorem RandomItemSelector.pull_items [DecidableEq α] (s : RandomItemSelector α)
    (k : Nat) : (s.pull_random_item k).2.items = s.items := by
  by_cases h : s.items = []
  · rw [s.pull_random_item_of_nil k h]
  · obtain ⟨hlt, heq⟩ := s.pull_random_item_eq k h
    rw [heq]

/-- A draw from a non-empty pool returns an item. -/
theorem RandomItemSelector.pull_isSome [DecidableEq α] (s : RandomItemSelector α)
    (k : Nat) (h : s.items ≠ []) : ((s.pull_random_item k).1).isSome = true := by
  obtain ⟨hlt, heq⟩ := s.pull_random_item_eq k h
  rw [heq]
  rfl

/-- A returned item is a member of the pool. -/
theorem RandomItemSelector.pull_mem [DecidableEq α] (s : RandomItemSelector α)
    (k : Nat) (x : α) (s2 : RandomItemSelector α)
    (h : s.pull_random_item k = (some x, s2)) : x ∈ s.items := by
  by_cases hnil : s.items = []
  · rw [s.pull_random_item_of_nil k hnil] at h
    simp at h
  · obtain ⟨hlt, heq⟩ := s.pull_random_item_eq k hnil
    rw [heq] at h
    have hfst := congrArg Prod.fst h
    simp only [Option.some.injEq] at hfst
    rw [← hfst]
    exact s.mem_of_mem_pullAvail _ (List.get_mem _ _ _)

/-- When `available` is non-empty, a draw returns some not-yet-used pool
element and appends it to the history (no reset happens). -/
theorem RandomItemSelector.pull_of_available_ne_nil [DecidableEq α]
    (s : RandomItemSelector α) (k : Nat) (h : s.available ≠ []) :
    ∃ x, x ∈ s.items ∧ x ∉ s.used_items ∧
      s.pull_random_item k = (some x, ⟨s.items, s.used_items ++ [x]⟩) := by
  have hA : ¬ s.available.isEmpty := by simpa using h
  have hitems : s.items ≠ [] := by
    intro hnil
    exact h (by simp [available, hnil])
  obtain ⟨hlt, heq⟩ := s.pull_random_item_eq k hitems
  have hpa : s.pullAvail = s.available := by simp [pullAvail, hA]
  have hmemA : s.pullAvail.get ⟨k % s.pullAvail.length, hlt⟩ ∈ s.available := by
    rw [← hpa]
    exact List.get_mem _ _ _
  refine ⟨s.pullAvail.get ⟨k % s.pullAvail.length, hlt⟩,
    ((s.mem_available _).mp hmemA).1, ((s.mem_available _).mp hmemA).2, ?_⟩
  rw [heq]
  simp [hA]

/-- Invariant of a run of consecutive draws that stays inside one cycle
(`used_items.length + ks.length ≤ items.length`, distinct pool, history a
subset of the pool without duplicates): the pool is unchanged, every draw
succeeds, the final history is the initial one extended by the drawn values,
and it stays duplicate-free inside the pool. -/
theorem RandomItemSelector.pull_seq_spec [DecidableEq α] (ks : List Nat) :
    ∀ (s : RandomItemSelector α),
      s.items.Nodup → s.used_items.Nodup → (∀ x ∈ s.used_items, x ∈ s.items) →
      s.used_items.length + ks.length ≤ s.items.length →
      (s.pull_seq ks).2.items = s.items ∧
      (s.pull_seq ks).2.used_items = s.used_items ++ (s.pull_seq ks).1.filterMap id ∧
      ((s.pull_seq ks).1.filterMap id).length = ks.length ∧
      (s.pull_seq ks).2.used_items.Nodup ∧
      (∀ x ∈ (s.pull_seq ks).2.used_items, x ∈ s.items) := by
  induction ks with
  | nil =>
    intro s h1 h2 h3 h4
    exact ⟨rfl, by simp [pull_seq], by simp [pull_seq], h2, h3⟩
  | cons k ks ih =>
    intro s h1 h2 h3 h4
    have hav : s.available ≠ [] := by
      intro hnil
      have hsub : s.items ⊆ s.used_items := by
        intro y hy
        by_contra hyu
        have hmem : y ∈ s.available := (s.mem_available y).mpr ⟨hy, hyu⟩
        rw [hnil] at hmem
        exact absurd hmem (List.not_mem_nil y)
      have hle := (List.subperm_of_subset h1 hsub).length_le
      simp at h4
      omega
    obtain ⟨x, hxi, hxu, heq⟩ := s.pull_of_available_ne_nil k hav
    have hstep : s.pull_seq (k :: ks) =
        ((some x) ::
           ((⟨s.items, s.used_items ++ [x]⟩ : RandomItemSelector α).pull_seq ks).1,
         ((⟨s.items, s.used_items ++ [x]⟩ : RandomItemSelector α).pull_seq ks).2) := by
      simp [pull_seq, heq]
    have hnd : (s.used_items ++ [x]).Nodup := by
      simp [List.nodup_append, h2, hxu]
    have hmem : ∀ y ∈ s.used_items ++ [x], y ∈ s.items := by
      intro y hy
      rcases List.mem_append.mp hy with hy | hy
      · exact h3 y hy
      · simp at hy
        subst hy
        exact hxi
    have hlen : (s.used_items ++ [x]).length + ks.length ≤ s.items.length := by
      simp at h4 ⊢
      omega
    obtain ⟨i1, i2, i3, i4, i5⟩ := ih ⟨s.items, s.used_items ++ [x]⟩ h1 hnd hmem hlen
    rw [hstep]
    refine ⟨i1, ?_, ?_, i4, i5⟩
    · simp only [List.filterMap_cons, id]
      rw [i2]
      simp
    · simp only [List.filterMap_cons, id, List.length_cons, i3]

/-- C1: for every pool of N distinct items, N consecutive calls to
`pull_random_item` starting from an empty history, with no reset in between
(any randomness oracle sequence `ks` of length N), return values that are a
permutation of the full pool — no value repeats before exhaustion. -/
theorem c1_n_draws_are_permutation [DecidableEq α] (s : RandomItemSelector α)
    (ks : List Nat) (h1 : s.items.Nodup) (h2 : s.used_items = [])
    (h3 : ks.length = s.items.length) :
    ((s.pull_seq ks).1.filterMap id).Perm s.items := by
  obtain ⟨i1, i2, i3, i4, i5⟩ := RandomItemSelector.pull_seq_spec ks s h1
    (by simp [h2]) (by simp [h2]) (by simp [h2, h3])
  have hres : (s.pull_seq ks).2.used_items = (s.pull_seq ks).1.filterMap id := by
    rw [i2, h2, List.nil_append]
  have hnd : ((s.pull_seq ks).1.filterMap id).Nodup := hres ▸ i4
  have hsub : (s.pull_seq ks).1.filterMap id ⊆ s.items := by
    intro y hy
    exact i5 y (hres ▸ hy)
  exact (List.subperm_of_subset hnd hsub).perm_of_length_le (by rw [i3, h3])

/-- Witness for C1: pool `["A", "B", "C"]`, oracles `[0, 0, 0]` — the three
draws are a permutation of the pool. -/
theorem c1_witness :
    (["A", "B", "C"] : List String).Nodup ∧
    (((⟨["A", "B", "C"], []⟩ : RandomItemSelector String).pull_seq
        [0, 0, 0]).1.filterMap id).Perm ["A", "B", "C"] :=
  ⟨by decide,
   c1_n_draws_are_permutation ⟨["A", "B", "C"], []⟩ [0, 0, 0] (by decide) rfl rfl⟩

/-- C2: when the pool is non-empty and every pool value already occurs in the
history, the draw clears the history and selects from the full `items` list:
the result is `items[k % items.length]` and the new history holds exactly that
one item. -/
theorem c2_exhausted_pool_resets_and_draws_from_full_pool [DecidableEq α]
    (s : RandomItemSelector α) (k : Nat) (hne : s.items ≠ [])
    (hall : ∀ x ∈ s.items, x ∈ s.used_items) :
    ∃ hlt : k % s.items.length < s.items.length,
      s.pull_random_item k =
        (some (s.items.get ⟨k % s.items.length, hlt⟩),
         ⟨s.items, [s.items.get ⟨k % s.items.length, hlt⟩]⟩) := by
  have hAnil : s.available = [] := by
    rw [List.eq_nil_iff_forall_not_mem]
    intro x hx
    exact ((s.mem_available x).mp hx).2 (hall x ((s.mem_available x).mp hx).1)
  have hA : s.available.isEmpty = true := by simp [hAnil]
  have hlt : k % s.items.length < s.items.length :=
    Nat.mod_lt _ (List.length_pos.mpr hne)
  refine ⟨hlt, ?_⟩
  unfold RandomItemSelector.pull_random_item
  rw [if_neg (by simp [hne])]
  have hpa : s.pullAvail = s.items := by simp [RandomItemSelector.pullAvail, hA]
  simp only [hpa, hA, if_true, List.getElem?_eq_getElem hlt,
    RandomItemSelector.reset, List.get_eq_getElem, List.nil_append]

/-- Witness for C2: pool `["a", "b"]` with both values used; oracle 1 selects
`items[1] = "b"` and the history becomes `["b"]`. -/
theorem c2_witness :
    ((["a", "b"] : List String) ≠ [] ∧
     ∃ hlt : 1 % (["a", "b"] : List String).length < (["a", "b"] : List String).length,
       (⟨["a", "b"], ["b", "a"]⟩ : RandomItemSelector String).pull_random_item 1 =
         (some ((["a", "b"] : List String).get ⟨1 % (["a", "b"] : List String).length, hlt⟩),
          ⟨["a", "b"], [(["a", "b"] : List String).get ⟨1 % (["a", "b"] : List String).length, hlt⟩]⟩)) :=
  ⟨by decide,
   c2_exhausted_pool_resets_and_draws_from_full_pool ⟨["a", "b"], ["b", "a"]⟩ 1
     (by decide) (by decide)⟩

/-- C3: for a selector whose pool is empty, `pull_random_item` clears the
history, returns `none`, and (being a total Lean function) raises no fault. -/
theorem c3_empty_pool_returns_none [DecidableEq α] (s : RandomItemSelector α)
    (k : Nat) (h : s.items = []) :
    s.pull_random_item k = (none, ⟨s.items, []⟩) :=
  s.pull_random_item_of_nil k h

/-- Witness for C3: an empty pool with a stale history returns `none` and the
history is cleared. -/
theorem c3_witness :
    (([] : List String) = [] ∧
     (⟨[], ["x"]⟩ : RandomItemSelector String).pull_random_item 5 = (none, ⟨[], []⟩)) :=
  ⟨rfl, c3_empty_pool_returns_none ⟨[], ["x"]⟩ 5 rfl⟩

/-- C5: exclusion of drawn items is by value equality: a successful draw puts
the drawn value into the history, and any value in any selector history is
excluded from `available` entirely — its count there is zero no matter how many
equal-valued entries the pool holds, so equal-valued entries are mutually
exhausted until a reset clears the history. -/
theorem c5_exclusion_by_value_equality [DecidableEq α] (s : RandomItemSelector α)
    (k : Nat) (x : α) (s2 : RandomItemSelector α)
    (h : s.pull_random_item k = (some x, s2)) :
    x ∈ s2.used_items ∧
    ∀ t : RandomItemSelector α, ∀ y ∈ t.used_items, t.available.count y = 0 := by
  constructor
  · by_cases hnil : s.items = []
    · rw [s.pull_random_item_of_nil k hnil] at h
      simp at h
    · obtain ⟨hlt, heq⟩ := s.pull_random_item_eq k hnil
      rw [heq, Prod.mk.injEq, Option.some.injEq] at h
      obtain ⟨h1, h2⟩ := h
      rw [← h2, ← h1]
      simp
  · intro t y hy
    rw [List.count_eq_zero]
    intro hmem
    exact ((t.mem_available y).mp hmem).2 hy

/-- Witness for C5: pool `["a", "a", "b"]` holds two equal-valued entries;
after drawing `"a"` once it is in the history, and the count of `"a"` in the
resulting `available` is zero although the pool still holds it twice. -/
theorem c5_witness :
    "a" ∈ (⟨["a", "a", "b"], ["a"]⟩ : RandomItemSelector String).used_items ∧
    (⟨["a", "a", "b"], ["a"]⟩ : RandomItemSelector String).available.count "a" = 0 ∧
    (⟨["a", "a", "b"], ["a"]⟩ : RandomItemSelector String).items.count "a" = 2 :=
  ⟨(c5_exclusion_by_value_equality ⟨["a", "a", "b"], []⟩ 0 "a" ⟨["a", "a", "b"], ["a"]⟩
      (by decide)).1,
   (c5_exclusion_by_value_equality ⟨["a", "a", "b"], []⟩ 0 "a" ⟨["a", "a", "b"], ["a"]⟩
      (by decide)).2 ⟨["a", "a", "b"], ["a"]⟩ "a" (by decide),
   by decide⟩

/-- C7: `reset` clears the history and changes nothing else — the pool is
untouched and every previously used item becomes eligible again
(`available` after the reset is the full pool). -/
theorem c7_reset_clears_only_history [DecidableEq α] (s : RandomItemSelector α) :
    (s.reset).used_items = [] ∧ (s.reset).items = s.items ∧
    (s.reset).available = s.items := by
  refine ⟨rfl, rfl, ?_⟩
  simp [RandomItemSelector.available, RandomItemSelector.reset]

/-- C10: a draw never changes the pool: `items` after `pull_random_item` is
exactly `items` before, on both the empty-pool branch and the drawing branch. -/
theorem c10_pull_preserves_items [DecidableEq α] (s : RandomItemSelector α)
    (k : Nat) : (s.pull_random_item k).2.items = s.items :=
  s.pull_items k

/-- Every encounter the program defines (only `DefaultEncounter`) reports
`CONTINUE`. -/
theorem Encounter.run_encounter_continue (e : Encounter) (g : SenseClueGenerator)
    (k1 k2 : Nat) : (e.run_encounter g k1 k2).1 = EncounterOutcome.CONTINUE := by
  cases e
  rfl

/-- A returned item of a draw belongs to the pool (projection form). -/
theorem RandomItemSelector.pull_fst_mem [DecidableEq α] (s : RandomItemSelector α)
    (k : Nat) (x : α) (h : (s.pull_random_item k).1 = some x) : x ∈ s.items :=
  s.pull_mem k x (s.pull_random_item k).2 (by rw [← h])

/-- Strengthened invariant of reachable selector states: the history is
duplicate-free and contained in the pool. -/
theorem RandomItemSelector.reachable_invariant [DecidableEq α]
    (s : RandomItemSelector α) (h : RandomItemSelector.Reachable s) :
    s.used_items.Nodup ∧ ∀ x ∈ s.used_items, x ∈ s.items := by
  induction h with
  | init items =>
    exact ⟨List.nodup_nil, by simp [RandomItemSelector.init]⟩
  | add_item t x ht ih =>
    obtain ⟨ih1, ih2⟩ := ih
    refine ⟨ih1, fun y hy => ?_⟩
    simp only [RandomItemSelector.add_item, List.mem_append]
    exact Or.inl (ih2 y hy)
  | reset t ht ih =>
    exact ⟨List.nodup_nil, by simp [RandomItemSelector.reset]⟩
  | pull t k ht ih =>
    obtain ⟨ih1, ih2⟩ := ih
    by_cases hnil : t.items = []
    · rw [t.pull_random_item_of_nil k hnil]
      exact ⟨List.nodup_nil, by simp⟩
    · by_cases hA : t.available = []
      · obtain ⟨hlt, heq⟩ := t.pull_random_item_eq k hnil
        rw [heq]
        have hAE : t.available.isEmpty = true := by simp [hA]
        simp only [hAE, if_true, List.nil_append]
        refine ⟨List.nodup_singleton _, fun y hy => ?_⟩
        simp only [List.mem_singleton] at hy
        subst hy
        exact t.mem_of_mem_pullAvail _ (List.get_mem _ _ _)
      · obtain ⟨x, hxi, hxu, heq⟩ := t.pull_of_available_ne_nil k hA
        rw [heq]
        refine ⟨by simp [List.nodup_append, ih1, hxu], fun y hy => ?_⟩
        rcases List.mem_append.mp hy with hy | hy
        · exact ih2 y hy
        · simp only [List.mem_singleton] at hy
          subst hy
          exact hxi

/-- C8: the invariant `used_items.length ≤ items.length` holds in the initial
state and in every state reachable through the `RandomItemSelector` operations
(construction/`init`, `add_item`, `pull_random_item`, `reset`), observed at
operation boundaries. -/
theorem c8_used_length_le_items_length [DecidableEq α] (s : RandomItemSelector α)
    (h : RandomItemSelector.Reachable s) :
    s.used_items.length ≤ s.items.length := by
  obtain ⟨h1, h2⟩ := RandomItemSelector.reachable_invariant s h
  exact (List.subperm_of_subset h1 h2).length_le

/-- Witness for C8: a freshly constructed two-item selector after one draw
satisfies the invariant. -/
theorem c8_witness :
    (((RandomItemSelector.init (some ["a", "b"]) : RandomItemSelector String).pull_random_item
        0).2).used_items.length ≤
      (((RandomItemSelector.init (some ["a", "b"]) : RandomItemSelector String).pull_random_item
        0).2).items.length :=
  c8_used_length_le_items_length _
    (RandomItemSelector.Reachable.pull _ 0 (RandomItemSelector.Reachable.init _))

/-- C4: a draw from a non-empty pool never returns `none`; consequently, when
the Castle room pool is non-empty, `next_room` never takes the absent-room
branch — the only branch that produces `END` — so no successful `next_room`
call returns `END`. -/
theorem c4_end_branch_unreachable :
    (∀ (α : Type) [DecidableEq α] (s : RandomItemSelector α) (k : Nat),
        s.items ≠ [] → ((s.pull_random_item k).1).isSome = true) ∧
    (∀ (c : Castle) (nd : Nat) (inputs : List (Option Int)) (k : Nat)
        (g : SenseClueGenerator) (k1 k2 : Nat)
        (r : EncounterOutcome × Castle × SenseClueGenerator),
        c.room_selector.items ≠ [] →
        c.next_room nd inputs k g k1 k2 = some r →
        r.1 ≠ EncounterOutcome.END) := by
  constructor
  · intro α _ s k h
    exact s.pull_isSome k h
  · intro c nd inputs k g k1 k2 r hne hnr
    have hs := c.room_selector.pull_isSome k hne
    unfold Castle.next_room at hnr
    cases hsd : Castle.select_door nd inputs with
    | none =>
      rw [hsd] at hnr
      exact absurd hnr (by simp)
    | some d =>
      rw [hsd] at hnr
      cases hp : (c.room_selector.pull_random_item k).1 with
      | none =>
        rw [hp] at hs
        simp at hs
      | some room =>
        simp only [hp, Option.some.injEq] at hnr
        rw [← hnr]
        simp [Room.visit_room, Encounter.run_encounter_continue]

/-- Witness for C4: a singleton pool draw is `some`, and a one-room castle
completes a `next_room` call with outcome `CONTINUE`, not `END`. -/
theorem c4_witness :
    (((⟨["x"], []⟩ : RandomItemSelector String).pull_random_item 3).1).isSome = true ∧
    ((EncounterOutcome.CONTINUE,
      (⟨⟨[⟨"Library", .DefaultEncounter⟩], [⟨"Library", .DefaultEncounter⟩]⟩⟩ : Castle),
      (⟨⟨["c"], ["c"]⟩, ⟨["s"], ["s"]⟩⟩ : SenseClueGenerator)) :
        EncounterOutcome × Castle × SenseClueGenerator).1 ≠ EncounterOutcome.END :=
  ⟨c4_end_branch_unreachable.1 String ⟨["x"], []⟩ 3 (by decide),
   c4_end_branch_unreachable.2 ⟨⟨[⟨"Library", .DefaultEncounter⟩], []⟩⟩ 2 [some 1] 0
     ⟨⟨["c"], []⟩, ⟨["s"], []⟩⟩ 0 0
     (EncounterOutcome.CONTINUE,
      ⟨⟨[⟨"Library", .DefaultEncounter⟩], [⟨"Library", .DefaultEncounter⟩]⟩⟩,
      ⟨⟨["c"], ["c"]⟩, ⟨["s"], ["s"]⟩⟩)
     (by decide) (by decide)⟩

/-- C6: `get_senseclue` composition: when both draws yield an item, the result
is clue and sense joined by one space; when exactly one yields an item, the
result is that item; when neither does, the result is the empty string.  The
hypotheses say the pools hold no empty string, which is true of the corpora
the generator is constructed with (Python truthiness then coincides with
presence). -/
theorem c6_senseclue_composition (g : SenseClueGenerator) (k1 k2 : Nat)
    (hc : "" ∉ g.clue_selector.items) (hs : "" ∉ g.sense_selector.items) :
    (g.get_senseclue k1 k2).1 =
      match (g.clue_selector.pull_random_item k1).1,
            (g.sense_selector.pull_random_item k2).1 with
      | some c, some sn => c ++ " " ++ sn
      | some c, none => c
      | none, some sn => sn
      | none, none => "" := by
  unfold SenseClueGenerator.get_senseclue
  cases hpc : (g.clue_selector.pull_random_item k1).1 with
  | none =>
    cases hps : (g.sense_selector.pull_random_item k2).1 with
    | none => simp [hpc, hps, truthy]
    | some sn =>
      have hsnE : sn.isEmpty = false := by
        have hmem := g.sense_selector.pull_fst_mem k2 sn hps
        cases hE : sn.isEmpty
        · rfl
        · have hseq : sn = "" := by simpa [String.isEmpty_iff] using hE
          rw [hseq] at hmem
          exact absurd hmem hs
      simp [hpc, hps, truthy, hsnE]
  | some c =>
    have hcE : c.isEmpty = false := by
      have hmem := g.clue_selector.pull_fst_mem k1 c hpc
      cases hE : c.isEmpty
      · rfl
      · have hceq : c = "" := by simpa [String.isEmpty_iff] using hE
        rw [hceq] at hmem
        exact absurd hmem hc
    cases hps : (g.sense_selector.pull_random_item k2).1 with
    | none => simp [hpc, hps, truthy, hcE]
    | some sn =>
      have hsnE : sn.isEmpty = false := by
        have hmem := g.sense_selector.pull_fst_mem k2 sn hps
        cases hE : sn.isEmpty
        · rfl
        · have hseq : sn = "" := by simpa [String.isEmpty_iff] using hE
          rw [hseq] at hmem
          exact absurd hmem hs
      simp [hpc, hps, truthy, hcE, hsnE]

/-- Witness for C6: both pools non-empty and free of empty strings; the output
is the clue and the sense joined by a single space. -/
theorem c6_witness :
    ("" ∉ (["c"] : List String) ∧ "" ∉ (["s"] : List String)) ∧
    ((⟨⟨["c"], []⟩, ⟨["s"], []⟩⟩ : SenseClueGenerator).get_senseclue 0 0).1 =
      "c" ++ " " ++ "s" :=
  ⟨⟨by decide, by decide⟩,
   c6_senseclue_composition ⟨⟨["c"], []⟩, ⟨["s"], []⟩⟩ 0 0 (by decide) (by decide)⟩

/-- C9: the validated door number is discarded: two `next_room` runs from the
same castle, generator state and randomness, whose input streams both lead to
a successful (possibly different) door choice, draw the same room and return
the same outcome and successor states. -/
theorem c9_door_choice_has_no_effect (c : Castle) (nd : Nat)
    (inputs1 inputs2 : List (Option Int)) (d1 d2 : Int) (k : Nat)
    (g : SenseClueGenerator) (k1 k2 : Nat)
    (h1 : Castle.select_door nd inputs1 = some d1)
    (h2 : Castle.select_door nd inputs2 = some d2) :
    c.next_room nd inputs1 k g k1 k2 = c.next_room nd inputs2 k g k1 k2 := by
  unfold Castle.next_room
  rw [h1, h2]

/-- Witness for C9: door 1 chosen directly versus door 2 chosen after a
non-numeric line and an out-of-range 7 — the `next_room` results coincide. -/
theorem c9_witness :
    Castle.select_door 3 [some 1] = some 1 ∧
    Castle.select_door 3 [none, some 7, some 2] = some 2 ∧
    Castle.next_room ⟨⟨[⟨"Library", .DefaultEncounter⟩], []⟩⟩ 3 [some 1] 0
        ⟨⟨["c"], []⟩, ⟨["s"], []⟩⟩ 0 0 =
      Castle.next_room ⟨⟨[⟨"Library", .DefaultEncounter⟩], []⟩⟩ 3 [none, some 7, some 2] 0
        ⟨⟨["c"], []⟩, ⟨["s"], []⟩⟩ 0 0 :=
  ⟨by decide, by decide,
   c9_door_choice_has_no_effect ⟨⟨[⟨"Library", .DefaultEncounter⟩], []⟩⟩ 3
     [some 1] [none, some 7, some 2] 1 2 0 ⟨⟨["c"], []⟩, ⟨["s"], []⟩⟩ 0 0
     (by decide) (by decide)⟩
